import Mathlib

/-!
Verification of the retrieval-merge-and-prompt request handler of the
portfolio chat API (`src/app/api/chat/route.ts`, with the near-duplicate
second handler `src/unnamed/part_000`).

The TypeScript code is shallowly embedded: knowledge rows are structures of
optional string fields (a missing / SQL-null field is `none`), JavaScript
string templating of a possibly-null value is `jsStr` (null prints as the
text "null"), `Array.prototype.slice(0, n)` on a string is `sliceTake`,
`String.prototype.trim` is `jsTrim`, and the two external collaborators
(the row store and the completion service) are oracle inputs carried in a
`World` structure, so that the handler is a pure function from a `World`
to its HTTP response together with the side effects it issued.
-/

/-- A row of the `portfolio_knowledge` table, as selected by
`select("project,type,title,content,tags")`: every field may be null. -/
structure KnowledgeRow where
  project : Option String
  type : Option String
  title : Option String
  content : Option String
  tags : Option String
deriving DecidableEq

/-- JavaScript template-literal stringification of a field that is either a
string or null: `${x}` renders null as the text "null". -/
def jsStr : Option String → String
  | some s => s
  | none => "null"

/-- JavaScript `.slice(0, n)` on a string: the first `n` characters. -/
def sliceTake (s : String) (n : Nat) : String :=
  ⟨s.data.take n⟩

/-- The composite deduplication key computed at route.ts:115:
`${r.project}|${r.type}|${r.title}|${(r.content ?? "").slice(0, 60)}`. -/
def rowKey (r : KnowledgeRow) : String :=
  jsStr r.project ++ "|" ++ jsStr r.type ++ "|" ++ jsStr r.title ++ "|" ++
    sliceTake (r.content.getD "") 60

/-- The `merged.filter(...)` loop of route.ts:112-119: a `Set` of already
seen keys is threaded through the list, keeping a row exactly when its key
has not been seen before. -/
def dedupAux : List String → List KnowledgeRow → List KnowledgeRow
  | _, [] => []
  | seen, r :: rs =>
    if rowKey r ∈ seen then dedupAux seen rs
    else r :: dedupAux (rowKey r :: seen) rs

/-- Deduplication starting from an empty seen-set. -/
def dedupRows (l : List KnowledgeRow) : List KnowledgeRow :=
  dedupAux [] l

/-- The Retrieval Merger (route.ts:110-120): concatenate search results
before essentials, deduplicate by `rowKey` keeping first occurrences, then
`.slice(0, 16)`. -/
def mergeRows (search essentials : List KnowledgeRow) : List KnowledgeRow :=
  (dedupRows (search ++ essentials)).take 16

section DedupLemmas

/-- Every survivor of the dedup loop has a key that was not in the initial
seen-set. -/
lemma dedupAux_key_notin (seen : List String) (l : List KnowledgeRow) :
    ∀ r ∈ dedupAux seen l, rowKey r ∉ seen := by
  induction l generalizing seen with
  | nil => simp [dedupAux]
  | cons x xs ih =>
    simp only [dedupAux]
    split
    · exact ih seen
    · intro r hr
      rcases List.mem_cons.mp hr with rfl | hr
      · assumption
      · intro hmem
        exact ih (rowKey x :: seen) r hr (List.mem_cons_of_mem _ hmem)

/-- The dedup loop returns a sublist of its input: survivors keep their
relative order and nothing new is introduced. -/
lemma dedupAux_sublist (seen : List String) (l : List KnowledgeRow) :
    (dedupAux seen l).Sublist l := by
  induction l generalizing seen with
  | nil => simp [dedupAux]
  | cons x xs ih =>
    simp only [dedupAux]
    split
    · exact (ih seen).cons x
    · exact (ih (rowKey x :: seen)).cons₂ x

/-- The keys of the dedup loop's output are pairwise distinct. -/
lemma dedupAux_keys_nodup (seen : List String) (l : List KnowledgeRow) :
    ((dedupAux seen l).map rowKey).Nodup := by
  induction l generalizing seen with
  | nil => simp [dedupAux]
  | cons x xs ih =>
    simp only [dedupAux]
    split
    · exact ih seen
    · simp only [List.map_cons, List.nodup_cons]
      refine ⟨fun hmem => ?_, ih (rowKey x :: seen)⟩
      rcases List.mem_map.mp hmem with ⟨r, hr, hkey⟩
      exact dedupAux_key_notin _ _ r hr (hkey ▸ List.mem_cons_self _ _)

/-- Every key occurring in the input (and not already seen) is represented
by some survivor. -/
lemma dedupAux_covers (seen : List String) (l : List KnowledgeRow) :
    ∀ r ∈ l, rowKey r ∉ seen →
      ∃ r' ∈ dedupAux seen l, rowKey r' = rowKey r := by
  induction l generalizing seen with
  | nil => simp
  | cons x xs ih =>
    intro r hr hns
    simp only [dedupAux]
    split
    · rcases List.mem_cons.mp hr with rfl | hr
      · exact absurd ‹rowKey r ∈ seen› hns
      · exact ih seen r hr hns
    · by_cases hk : rowKey r = rowKey x
      · exact ⟨x, List.mem_cons_self _ _, hk.symm⟩
      · rcases List.mem_cons.mp hr with rfl | hr
        · exact absurd rfl hk
        · have hns' : rowKey r ∉ rowKey x :: seen := by
            simp only [List.mem_cons]
            exact fun h => h.elim hk hns
          rcases ih (rowKey x :: seen) r hr hns' with ⟨r', h1, h2⟩
          exact ⟨r', List.mem_cons_of_mem _ h1, h2⟩

/-- Each survivor is the first element of the input carrying its key. -/
lemma dedupAux_first_occurrence (seen : List String) (l : List KnowledgeRow) :
    ∀ r' ∈ dedupAux seen l,
      l.find? (fun x => rowKey x == rowKey r') = some r' := by
  induction l generalizing seen with
  | nil => simp [dedupAux]
  | cons x xs ih =>
    intro r' hr'
    simp only [dedupAux] at hr'
    split at hr'
    · have hnot : rowKey r' ∉ seen := dedupAux_key_notin seen xs r' hr'
      have hbe : (rowKey x == rowKey r') = false := by
        rw [beq_eq_false_iff_ne]
        intro he
        exact hnot (he ▸ ‹rowKey x ∈ seen›)
      simp only [List.find?_cons, hbe, cond_false]
      exact ih seen r' hr'
    · rcases List.mem_cons.mp hr' with rfl | hr'
      · simp [List.find?_cons]
      · have hnot : rowKey r' ∉ rowKey x :: seen :=
          dedupAux_key_notin (rowKey x :: seen) xs r' hr'
        have hbe : (rowKey x == rowKey r') = false := by
          rw [beq_eq_false_iff_ne]
          intro he
          exact hnot (he ▸ List.mem_cons_self _ _)
        simp only [List.find?_cons, hbe, cond_false]
        exact ih (rowKey x :: seen) r' hr'

end DedupLemmas

/-- C1: the Retrieval Merger concatenates search results before essentials
and its dedup pass keeps, for each composite key, exactly the first
occurrence in that order, preserving the relative order of survivors; the
final output is the 16-row truncation of that deduplicated sequence. -/
theorem merger_keeps_first_occurrence (search essentials : List KnowledgeRow) :
    (dedupRows (search ++ essentials)).Sublist (search ++ essentials) ∧
    ((dedupRows (search ++ essentials)).map rowKey).Nodup ∧
    (∀ r ∈ search ++ essentials,
      ∃ r' ∈ dedupRows (search ++ essentials), rowKey r' = rowKey r) ∧
    (∀ r' ∈ dedupRows (search ++ essentials),
      (search ++ essentials).find? (fun x => rowKey x == rowKey r') = some r') ∧
    mergeRows search essentials = (dedupRows (search ++ essentials)).take 16 := by
  refine ⟨dedupAux_sublist [] _, dedupAux_keys_nodup [] _, ?_, ?_, rfl⟩
  · exact fun r hr => dedupAux_covers [] _ r hr (by simp)
  · exact dedupAux_first_occurrence [] _

/-- C2: the merged, deduplicated, truncated sequence never exceeds 16
entries, whatever the sizes of the two input lists. -/
theorem merger_caps_at_16 (search essentials : List KnowledgeRow) :
    (mergeRows search essentials).length ≤ 16 :=
  List.length_take_le 16 (dedupRows (search ++ essentials))

/-- First collision example for C9: a "|" inside `project` shifts the field
boundaries of the key. -/
def rowPipeA : KnowledgeRow :=
  ⟨some "a|b", some "c", some "t", some "x", none⟩

/-- Second collision example row: different field split, same key. -/
def rowPipeB : KnowledgeRow :=
  ⟨some "a", some "b|c", some "t", some "x", none⟩

/-- Null-vs-"null" collision example: a null project field. -/
def rowNullA : KnowledgeRow :=
  ⟨none, some "c", some "t", some "x", none⟩

/-- Null-vs-"null" collision example: project is the literal string "null". -/
def rowNullB : KnowledgeRow :=
  ⟨some "null", some "c", some "t", some "x", none⟩

/-- C9: the composite key joins project, type, title and the first 60
characters of content with "|", stringifying null as "null"; consequently
rows with different field values can collide — a "|" inside a field or a
null field next to the literal "null" — and the merger then drops the later
row as a duplicate. -/
theorem rowKey_collisions :
    (∀ r : KnowledgeRow,
      rowKey r = jsStr r.project ++ "|" ++ jsStr r.type ++ "|" ++ jsStr r.title ++
        "|" ++ sliceTake (r.content.getD "") 60) ∧
    jsStr none = "null" ∧
    rowPipeA ≠ rowPipeB ∧ rowPipeA.project ≠ rowPipeB.project ∧
    rowKey rowPipeA = rowKey rowPipeB ∧
    mergeRows [rowPipeA] [rowPipeB] = [rowPipeA] ∧
    rowNullA ≠ rowNullB ∧ rowNullA.project = none ∧
    rowNullB.project = some "null" ∧
    rowKey rowNullA = rowKey rowNullB ∧
    mergeRows [rowNullA] [rowNullB] = [rowNullA] := by
  refine ⟨fun r => rfl, rfl, ?_, ?_, ?_, ?_, ?_, rfl, rfl, ?_, ?_⟩ <;> decide

/-! ## Context Formatter (route.ts:122-132) -/

/-- JavaScript whitespace test used by `trim`. -/
def jsWs (c : Char) : Bool :=
  c.isWhitespace

/-- `String.prototype.trim` on the character list: drop whitespace at both
ends. -/
def trimChars (l : List Char) : List Char :=
  ((l.dropWhile jsWs).reverse.dropWhile jsWs).reverse

/-- `String.prototype.trim`. -/
def jsTrim (s : String) : String :=
  ⟨trimChars s.data⟩

/-- `Array.prototype.join(sep)`. -/
def joinSep (sep : String) : List String → String
  | [] => ""
  | [s] => s
  | s :: rest => s ++ sep ++ joinSep sep rest

/-- One block of the context (route.ts:123-131): a `Source N [type | title
| tags: tags]` header, a newline, the trimmed content, the whole trimmed. -/
def formatRow (idx : Nat) (r : KnowledgeRow) : String :=
  let title := jsTrim (r.title.getD "")
  let ty := jsTrim (r.type.getD "")
  let content := jsTrim (r.content.getD "")
  let tags := jsTrim (r.tags.getD "")
  jsTrim ("Source " ++ Nat.repr (idx + 1) ++ " [" ++ ty ++
    (if title ≠ "" then " | " ++ title else "") ++
    (if tags ≠ "" then " | tags: " ++ tags else "") ++
    "]\n" ++ content)

/-- The `data.map((r, idx) => ...)` pass with its running index. -/
def formatRows : Nat → List KnowledgeRow → List String
  | _, [] => []
  | i, r :: rs => formatRow i r :: formatRows (i + 1) rs

/-- The full context block: blocks joined by a blank line. -/
def formatContext (rows : List KnowledgeRow) : String :=
  joinSep "\n\n" (formatRows 0 rows)

/-- JavaScript `String.prototype.includes`. -/
def strIncludes (hay needle : String) : Bool :=
  decide (needle.data <:+: hay.data)

/-- The dead `isProjectQuestion` flag (route.ts:82-89), computed and never
used by the handler. -/
def isProjectQuestion (message : String) : Bool :=
  let queryText := (jsTrim message).toLower
  strIncludes queryText "project" ||
  strIncludes queryText "projects" ||
  strIncludes queryText "case study" ||
  strIncludes queryText "case studies" ||
  strIncludes queryText "work" ||
  strIncludes queryText "portfolio projects"

section InfixMachinery

/-- `[]` is a prefix of anything. -/
lemma prefixNil (l : List Char) : [] <+: l :=
  ⟨l, rfl⟩

/-- A prefix that is an infix. -/
lemma infixOfPrefixL {p l : List Char} (h : p <+: l) : p <:+: l := by
  obtain ⟨t, ht⟩ := h
  exact ⟨[], t, ht⟩

/-- A suffix that is an infix. -/
lemma infixOfSuffixL {p l : List Char} (h : p <:+ l) : p <:+: l := by
  obtain ⟨s, hs⟩ := h
  exact ⟨s, [], by simp [hs]⟩

/-- Infixes compose. -/
lemma infixTransL {a b c : List Char} (h1 : a <:+: b) (h2 : b <:+: c) :
    a <:+: c := by
  obtain ⟨s, t, hst⟩ := h1
  obtain ⟨u, v, huv⟩ := h2
  refine ⟨u ++ s, t ++ v, ?_⟩
  rw [← huv, ← hst]
  simp [List.append_assoc]

/-- An infix of `l` is an infix of `x :: l`. -/
lemma infixConsOf {p : List Char} {x : Char} {l : List Char}
    (h : p <:+: l) : p <:+: x :: l := by
  obtain ⟨s, t, hst⟩ := h
  exact ⟨x :: s, t, by rw [List.cons_append, List.cons_append, hst]⟩

/-- An infix of a cons is a prefix of it or an infix of the tail. -/
lemma infixConsCases {p : List Char} {x : Char} {l : List Char}
    (h : p <:+: x :: l) : p <+: x :: l ∨ p <:+: l := by
  obtain ⟨s, t, hst⟩ := h
  cases s with
  | nil => exact Or.inl ⟨t, hst⟩
  | cons c s' =>
    injection hst with h1 h2
    exact Or.inr ⟨s', t, h2⟩

/-- Reversing preserves infixes. -/
lemma infixReverse {p l : List Char} (h : p <:+: l) :
    p.reverse <:+: l.reverse := by
  obtain ⟨s, t, hst⟩ := h
  refine ⟨t.reverse, s.reverse, ?_⟩
  rw [← hst]
  simp [List.reverse_append, List.append_assoc]

/-- Every character of an infix occurs in the larger list. -/
lemma memOfInfix {p l : List Char} (h : p <:+: l) {c : Char} (hc : c ∈ p) :
    c ∈ l := by
  obtain ⟨s, t, hst⟩ := h
  rw [← hst]
  simp [List.mem_append, hc]

/-- A prefix of `a ++ b` whose characters avoid `b`'s head character is a
prefix of `a` alone. -/
lemma prefixStop {p a b : List Char}
    (hb : ∀ c, b.head? = some c → c ∉ p) (h : p <+: a ++ b) : p <+: a := by
  induction p generalizing a with
  | nil => exact prefixNil a
  | cons y p' ih =>
    cases a with
    | nil =>
      obtain ⟨t, ht⟩ := h
      exfalso
      refine hb y ?_ (List.mem_cons_self _ _)
      rw [List.nil_append] at ht
      rw [← ht]
      rfl
    | cons z a' =>
      obtain ⟨t, ht⟩ := h
      rw [List.cons_append] at ht
      injection ht with h1 h2
      subst h1
      have hprf : p' <+: a' ++ b := ⟨t, h2⟩
      have hb' : ∀ c, b.head? = some c → c ∉ p' := fun c hc hcp =>
        hb c hc (List.mem_cons_of_mem _ hcp)
      obtain ⟨u, hu⟩ := ih hb' hprf
      exact ⟨u, by rw [List.cons_append, hu]⟩

/-- Splitting an infix of `a ++ b` when the boundary is blocked on the
right: `b` starts with a character that does not occur in `p`. -/
lemma infixSplitRight {p a b : List Char}
    (hb : ∀ c, b.head? = some c → c ∉ p) (h : p <:+: a ++ b) :
    p <:+: a ∨ p <:+: b := by
  induction a with
  | nil => exact Or.inr (by simpa using h)
  | cons x a' ih =>
    rw [List.cons_append] at h
    rcases infixConsCases h with hpre | hinf
    · rw [← List.cons_append] at hpre
      exact Or.inl (infixOfPrefixL (prefixStop hb hpre))
    · rcases ih hinf with h1 | h1
      · exact Or.inl (infixConsOf h1)
      · exact Or.inr h1

/-- Splitting an infix of `a ++ b` when the boundary is blocked on the
left: `a` ends with a character that does not occur in `p`. -/
lemma infixSplitLeft {p a b : List Char}
    (ha : ∀ c, a.getLast? = some c → c ∉ p) (h : p <:+: a ++ b) :
    p <:+: a ∨ p <:+: b := by
  have h' : p.reverse <:+: b.reverse ++ a.reverse := by
    have hr := infixReverse h
    rwa [List.reverse_append] at hr
  have hb : ∀ c, a.reverse.head? = some c → c ∉ p.reverse := by
    intro c hc hcp
    exact ha c (by rwa [List.head?_reverse] at hc) (List.mem_reverse.mp hcp)
  rcases infixSplitRight hb h' with h1 | h1
  · have := infixReverse h1
    simpa using Or.inr this
  · have := infixReverse h1
    simpa using Or.inl this

/-- Head of a list determined by an equation, pushed through `∉`. -/
lemma headNotMem {p : List Char} {c : Char} {l : List Char}
    (hl : l.head? = some c) (hc : c ∉ p) :
    ∀ d, l.head? = some d → d ∉ p := by
  intro d hd
  rw [hl] at hd
  injection hd with h
  exact h ▸ hc

/-- Last element of a list determined by an equation, pushed through `∉`. -/
lemma lastNotMem {p : List Char} {c : Char} {l : List Char}
    (hl : l.getLast? = some c) (hc : c ∉ p) :
    ∀ d, l.getLast? = some d → d ∉ p := by
  intro d hd
  rw [hl] at hd
  injection hd with h
  exact h ▸ hc

/-- `dropWhile` produces a suffix. -/
lemma dropWhileSuffix (q : Char → Bool) (l : List Char) :
    l.dropWhile q <:+ l := by
  induction l with
  | nil => exact ⟨[], rfl⟩
  | cons x xs ih =>
    rw [List.dropWhile_cons]
    split
    · obtain ⟨s, hs⟩ := ih
      exact ⟨x :: s, by rw [List.cons_append, hs]⟩
    · exact ⟨[], rfl⟩

/-- Dropping from the reversed list produces a prefix. -/
lemma reverseDropPrefixOf (q : Char → Bool) (m : List Char) :
    (m.reverse.dropWhile q).reverse <+: m := by
  obtain ⟨s, hs⟩ := dropWhileSuffix q m.reverse
  refine ⟨s.reverse, ?_⟩
  rw [← List.reverse_append, hs, List.reverse_reverse]

/-- Trimming yields an infix of the original list. -/
lemma trimCharsInfix (l : List Char) : trimChars l <:+: l :=
  infixTransL (infixOfPrefixL (reverseDropPrefixOf jsWs (l.dropWhile jsWs)))
    (infixOfSuffixL (dropWhileSuffix jsWs l))

/-- An infix of a trimmed string is an infix of the untrimmed string. -/
lemma infixOfTrim {p : List Char} {s : String}
    (h : p <:+: (jsTrim s).data) : p <:+: s.data :=
  infixTransL h (trimCharsInfix s.data)

/-- The digit characters produced by `Nat.digitChar` below base 10. -/
lemma digitCharIsDigit (m : Nat) (h : m < 10) :
    (Nat.digitChar m).isDigit = true := by
  interval_cases m <;> decide

/-- All characters produced by `Nat.toDigitsCore` in base 10 are digits. -/
lemma toDigitsCoreDigits :
    ∀ (fuel n : Nat) (acc : List Char), (∀ c ∈ acc, c.isDigit = true) →
      ∀ c ∈ Nat.toDigitsCore 10 fuel n acc, c.isDigit = true := by
  intro fuel
  induction fuel with
  | zero => intro n acc hacc; simpa [Nat.toDigitsCore] using hacc
  | succ fuel ih =>
    intro n acc hacc c hc
    simp only [Nat.toDigitsCore] at hc
    have hd : (Nat.digitChar (n % 10)).isDigit = true :=
      digitCharIsDigit _ (Nat.mod_lt n (by norm_num))
    split at hc
    · rcases List.mem_cons.mp hc with rfl | hc
      · exact hd
      · exact hacc c hc
    · refine ih (n / 10) (Nat.digitChar (n % 10) :: acc) ?_ c hc
      intro d hdm
      rcases List.mem_cons.mp hdm with rfl | hdm
      · exact hd
      · exact hacc d hdm

/-- Every character of `Nat.repr n` is a digit. -/
lemma reprDigits (n : Nat) : ∀ c ∈ (Nat.repr n).data, c.isDigit = true := by
  intro c hc
  exact toDigitsCoreDigits (n + 1) n [] (by simp) c hc

/-- Boundary step, blocked on the right: peel off a left part `a` that the
pattern cannot be inside, across a boundary whose right side starts with a
character foreign to the pattern. -/
lemma stepRight {p a b : List Char} (h : p <:+: a ++ b) (c : Char)
    (hc : c ∉ p) (hhead : b.head? = some c) (hna : ¬ p <:+: a) :
    p <:+: b :=
  (infixSplitRight (headNotMem hhead hc) h).resolve_left hna

/-- Boundary step, blocked on the left: peel off a left part `a` ending in
a character foreign to the pattern. -/
lemma stepLeft {p a b : List Char} (h : p <:+: a ++ b) (c : Char)
    (hc : c ∉ p) (hlast : a.getLast? = some c) (hna : ¬ p <:+: a) :
    p <:+: b :=
  (infixSplitLeft (lastNotMem hlast hc) h).resolve_left hna

/-- A pattern without digit characters is never inside a printed number. -/
lemma notInfixRepr {p : List Char} (hne : p ≠ [])
    (hdig : ∀ c ∈ p, c.isDigit = false) (n : Nat) :
    ¬ p <:+: (Nat.repr n).data := by
  intro h
  obtain ⟨c, hc⟩ := List.exists_mem_of_ne_nil p hne
  have h1 := reprDigits n c (memOfInfix h hc)
  rw [hdig c hc] at h1
  exact Bool.false_ne_true h1

end InfixMachinery

/-- Conditions making a pattern immune to the formatter's own template: it
is nonempty, contains none of the separator characters the template places
at segment boundaries, no digits, and is not inside any literal template
piece. -/
@[reducible] def cleanPattern (p : List Char) : Prop :=
  p ≠ [] ∧ ' ' ∉ p ∧ '\n' ∉ p ∧ '[' ∉ p ∧ ']' ∉ p ∧
  (∀ c ∈ p, c.isDigit = false) ∧
  ¬ p <:+: "Source ".data ∧ ¬ p <:+: " [".data ∧ ¬ p <:+: " | ".data ∧
  ¬ p <:+: " | tags: ".data ∧ ¬ p <:+: "]\n".data ∧ ¬ p <:+: "\n\n".data

/-- A clean pattern that is not inside any field of a row is not inside the
row's formatted block: every occurrence in the block would lie in a literal
template piece, the printed index, or one of the four (trimmed) field
values. -/
lemma block_clean {p : List Char} (hp : cleanPattern p) (i : Nat)
    (r : KnowledgeRow)
    (hty : ¬ p <:+: (r.type.getD "").data)
    (hti : ¬ p <:+: (r.title.getD "").data)
    (htg : ¬ p <:+: (r.tags.getD "").data)
    (hco : ¬ p <:+: (r.content.getD "").data) :
    ¬ p <:+: (formatRow i r).data := by
  obtain ⟨hne, hsp, hnl, hob, hcb, hdig, hlitSource, hlitBr, hlitBar,
    hlitTags, hlitEnd, _⟩ := hp
  intro h
  have h0 : p <:+: (jsTrim ("Source " ++ Nat.repr (i + 1) ++ " [" ++
      jsTrim (r.type.getD "") ++
      (if jsTrim (r.title.getD "") ≠ "" then " | " ++ jsTrim (r.title.getD "")
        else "") ++
      (if jsTrim (r.tags.getD "") ≠ "" then " | tags: " ++ jsTrim (r.tags.getD "")
        else "") ++
      "]\n" ++ jsTrim (r.content.getD ""))).data := h
  have h1 := infixOfTrim h0
  have hnum : ¬ p <:+: (Nat.repr (i + 1)).data := notInfixRepr hne hdig (i + 1)
  have hnty : ¬ p <:+: (jsTrim (r.type.getD "")).data :=
    fun hx => hty (infixOfTrim hx)
  have hnti : ¬ p <:+: (jsTrim (r.title.getD "")).data :=
    fun hx => hti (infixOfTrim hx)
  have hntg : ¬ p <:+: (jsTrim (r.tags.getD "")).data :=
    fun hx => htg (infixOfTrim hx)
  have hnco : ¬ p <:+: (jsTrim (r.content.getD "")).data :=
    fun hx => hco (infixOfTrim hx)
  by_cases hT : jsTrim (r.title.getD "") = ""
  · by_cases hG : jsTrim (r.tags.getD "") = ""
    · rw [if_neg (by simp [hT]), if_neg (by simp [hG])] at h1
      simp only [String.data_append, show ("" : String).data = [] from rfl,
        List.append_nil, List.nil_append, List.append_assoc] at h1
      have h2 := stepLeft h1 ' ' hsp rfl hlitSource
      have h3 := stepRight h2 ' ' hsp rfl hnum
      have h4 := stepLeft h3 '[' hob rfl hlitBr
      have h5 := stepRight h4 ']' hcb rfl hnty
      have h6 := stepLeft h5 '\n' hnl rfl hlitEnd
      exact hnco h6
    · rw [if_neg (by simp [hT]), if_pos hG] at h1
      simp only [String.data_append, show ("" : String).data = [] from rfl,
        List.append_nil, List.nil_append, List.append_assoc] at h1
      have h2 := stepLeft h1 ' ' hsp rfl hlitSource
      have h3 := stepRight h2 ' ' hsp rfl hnum
      have h4 := stepLeft h3 '[' hob rfl hlitBr
      have h5 := stepRight h4 ' ' hsp rfl hnty
      have h6 := stepLeft h5 ' ' hsp rfl hlitTags
      have h7 := stepRight h6 ']' hcb rfl hntg
      have h8 := stepLeft h7 '\n' hnl rfl hlitEnd
      exact hnco h8
  · by_cases hG : jsTrim (r.tags.getD "") = ""
    · rw [if_pos hT, if_neg (by simp [hG])] at h1
      simp only [String.data_append, show ("" : String).data = [] from rfl,
        List.append_nil, List.nil_append, List.append_assoc] at h1
      have h2 := stepLeft h1 ' ' hsp rfl hlitSource
      have h3 := stepRight h2 ' ' hsp rfl hnum
      have h4 := stepLeft h3 '[' hob rfl hlitBr
      have h5 := stepRight h4 ' ' hsp rfl hnty
      have h6 := stepLeft h5 ' ' hsp rfl hlitBar
      have h7 := stepRight h6 ']' hcb rfl hnti
      have h8 := stepLeft h7 '\n' hnl rfl hlitEnd
      exact hnco h8
    · rw [if_pos hT, if_pos hG] at h1
      simp only [String.data_append, List.append_assoc] at h1
      have h2 := stepLeft h1 ' ' hsp rfl hlitSource
      have h3 := stepRight h2 ' ' hsp rfl hnum
      have h4 := stepLeft h3 '[' hob rfl hlitBr
      have h5 := stepRight h4 ' ' hsp rfl hnty
      have h6 := stepLeft h5 ' ' hsp rfl hlitBar
      have h7 := stepRight h6 ' ' hsp rfl hnti
      have h8 := stepLeft h7 ' ' hsp rfl hlitTags
      have h9 := stepRight h8 ']' hcb rfl hntg
      have h10 := stepLeft h9 '\n' hnl rfl hlitEnd
      exact hnco h10

/-- A clean pattern inside the joined context would be inside one of the
blocks: the blank-line separator blocks every boundary. -/
lemma joinSepClean {p : List Char} (hne : p ≠ []) (hnl : '\n' ∉ p)
    (hsep : ¬ p <:+: "\n\n".data) (blocks : List String) :
    (∀ b ∈ blocks, ¬ p <:+: b.data) →
      ¬ p <:+: (joinSep "\n\n" blocks).data := by
  induction blocks with
  | nil =>
    intro _ h
    obtain ⟨s, t, hst⟩ := h
    have h1 : s ++ p ++ t = ([] : List Char) := hst
    rcases List.append_eq_nil.mp h1 with ⟨h2, _⟩
    rcases List.append_eq_nil.mp h2 with ⟨_, h3⟩
    exact hne h3
  | cons b rest ih =>
    intro hb h
    cases rest with
    | nil => exact hb b (List.mem_cons_self _ _) h
    | cons b' bs =>
      have h1 : p <:+: b.data ++
          ("\n\n".data ++ (joinSep "\n\n" (b' :: bs)).data) := by
        simpa only [joinSep, String.data_append, List.append_assoc] using h
      have h2 := stepRight h1 '\n' hnl rfl (hb b (List.mem_cons_self _ _))
      have h3 := stepLeft h2 '\n' hnl rfl hsep
      exact ih (fun x hx => hb x (List.mem_cons_of_mem _ hx)) h3

/-- All blocks of a row list with clean fields are clean. -/
lemma formatRowsClean {p : List Char} (hp : cleanPattern p)
    (rows : List KnowledgeRow) :
    ∀ i : Nat,
      (∀ r ∈ rows, ¬ p <:+: (r.type.getD "").data ∧
        ¬ p <:+: (r.title.getD "").data ∧ ¬ p <:+: (r.tags.getD "").data ∧
        ¬ p <:+: (r.content.getD "").data) →
      ∀ b ∈ formatRows i rows, ¬ p <:+: b.data := by
  induction rows with
  | nil => intro i _ b hb; simp [formatRows] at hb
  | cons r rs ih =>
    intro i hf b hb
    simp only [formatRows] at hb
    rcases List.mem_cons.mp hb with rfl | hb
    · obtain ⟨h1, h2, h3, h4⟩ := hf r (List.mem_cons_self _ _)
      exact block_clean hp i r h1 h2 h3 h4
    · exact ih (i + 1) (fun x hx => hf x (List.mem_cons_of_mem _ hx)) b hb

/-- Main non-leakage lemma for the context formatter. -/
lemma formatContextClean {p : List Char} (hp : cleanPattern p)
    (rows : List KnowledgeRow)
    (hf : ∀ r ∈ rows, ¬ p <:+: (r.type.getD "").data ∧
      ¬ p <:+: (r.title.getD "").data ∧ ¬ p <:+: (r.tags.getD "").data ∧
      ¬ p <:+: (r.content.getD "").data) :
    ¬ p <:+: (formatContext rows).data := by
  have hblocks := formatRowsClean hp rows 0 hf
  obtain ⟨hne, _, hnl, _, _, _, _, _, _, _, _, hsep⟩ := hp
  exact joinSepClean hne hnl hsep (formatRows 0 rows) hblocks

/-- A knowledge row whose content field itself carries a raw label. -/
def rowWithLabel : KnowledgeRow :=
  ⟨none, some "bio", none, some "Tags: example", none⟩

/-- C6 counterexample: the claim quantifies over every merged row sequence,
but for a row whose content contains "Tags:" the formatter's output block
literally prints "Tags:" in the block body after the structured header. -/
theorem formatter_counterexample :
    formatContext [rowWithLabel] = "Source 1 [bio]" ++ "\n" ++ "Tags: example" ∧
    "Tags:".data <:+: ("Tags: example" : String).data := by
  refine ⟨by decide, by decide⟩

/-- C6 (amended): the formatter itself never introduces the raw store field
labels: whenever no field value of any merged row contains "Project:" or
"Tags:", the formatted output contains neither. -/
theorem formatter_no_label_leakage (rows : List KnowledgeRow)
    (hf : ∀ r ∈ rows, ∀ f ∈ [r.project, r.type, r.title, r.content, r.tags],
      ¬ "Project:".data <:+: (f.getD "").data ∧
      ¬ "Tags:".data <:+: (f.getD "").data) :
    ¬ "Project:".data <:+: (formatContext rows).data ∧
    ¬ "Tags:".data <:+: (formatContext rows).data := by
  constructor
  · refine formatContextClean (by decide) rows fun r hr => ?_
    exact ⟨(hf r hr r.type (by simp)).1, (hf r hr r.title (by simp)).1,
      (hf r hr r.tags (by simp)).1, (hf r hr r.content (by simp)).1⟩
  · refine formatContextClean (by decide) rows fun r hr => ?_
    exact ⟨(hf r hr r.type (by simp)).2, (hf r hr r.title (by simp)).2,
      (hf r hr r.tags (by simp)).2, (hf r hr r.content (by simp)).2⟩

/-- A row with ordinary label-free field values. -/
def benignRow : KnowledgeRow :=
  ⟨some "ParkIQ", some "project-description", some "ParkIQ",
    some "Parking analytics case study", some "ux"⟩

/-- Witness for the amended C6 theorem at a concrete row list. -/
theorem formatter_no_label_leakage_witness :
    ¬ "Project:".data <:+: (formatContext [benignRow]).data ∧
    ¬ "Tags:".data <:+: (formatContext [benignRow]).data :=
  formatter_no_label_leakage [benignRow] (by decide)


/-! ## Request handler (route.ts:4-224) and its near-duplicate
(`src/unnamed/part_000`) -/

/-- The raw system template literal of route.ts:135-171 (the handler
applies `.trim()` to it). -/
def systemPromptRaw : String :=
  "\nYou are a portfolio assistant for Manthan Rase.\n\nYou MUST answer using ONLY the PORTFOLIO CONTEXT provided.\nIf the answer is not clearly in the context, respond exactly:\n\"I don't know based on my portfolio content.\"\n\nCritical rules:\n- Do NOT paste or repeat the PORTFOLIO CONTEXT verbatim.\n- Do NOT output database-style fields or labels such as \"#1\", \"Project:\", \"Type:\", \"Title:\", \"Tags:\", \"Content:\".\n- Instead, synthesize the context into natural, recruiter-friendly sentences.\n\nExperience rules:\n- NEVER estimate years of experience from education dates.\n- If the user asks about years of experience, you MUST look for \"work experience\" in the provided context.\n- If the context contains a total like \"3+ years\", you MUST use that exact number.\n- If the context does NOT contain a total, say: \"I don't know based on my portfolio content.\"\n- Keep the answer under 1–2 sentences.\n\nStyle:\n- Keep answers concise, professional, and human.\n- If the user asks a single word like \"education\", treat it as \"Tell me about your education\" and summarize.\n\nProjects rule:\n- If the user asks for \"projects\" (or similar), list ONLY these 5 projects:\n  UXLens-AI, Moodly, De Blaze, ParkIQ, Ghost Shooter.\n  Do NOT include education, hobbies, skills, philosophy, or contact as projects.\n  Tense + factuality rules:\n\n- If an education entry has an end year in the future (e.g., 2026), you MUST say \"currently pursuing\" or \"in progress\".\n- NEVER say \"has a Master’s degree\" unless the context explicitly says completed/graduated.\n- Keep answers under 2 sentences unless the user asks for more.\n- Refer to the person as \"Manthan\" (not \"you\") unless the user explicitly asks in first-person.\n\n-Answer in 2–4 short sentences unless the user asks for more detail.\n\n"

/-- The system prompt of route.ts: the raw template, trimmed. -/
def systemPrompt : String :=
  jsTrim systemPromptRaw

/-- The system prompt of the second handler (part_000:135-169); that file
does not trim it. -/
def systemPromptV0 : String :=
  "\nYou are a portfolio assistant for Manthan Rase. Visitors (recruiters, collaborators, clients) use this chat to learn about him.\n\nLENGTH RULE (CRITICAL — follow this above all else):\n- Default: 1–2 sentences max.\n- Only give a longer answer if the user explicitly asks to \"elaborate\", \"tell me more\", \"explain in detail\", or similar.\n- NEVER volunteer extra information that wasn’t asked for.\n\nGREETING / SMALLTALK RULE (CRITICAL):\nIf the user says \"hi\", \"hello\", \"hey\", \"how are you\", \"nice to meet you\", or any casual opener:\n- Reply with exactly 1 casual line. Nothing more.\n- Do NOT mention skills, projects, experience, or education.\n- Example: \"Hi! What would you like to know about Manthan?\"\n\nIDENTITY RULES:\n- Speak about Manthan in third person.\n- NEVER address the user as \"Manthan\". NEVER assume the visitor’s name.\n\nCONTEXT RULES:\n- Answer ONLY from the PORTFOLIO CONTEXT provided.\n- If the answer isn’t in the context, say: \"I don’t know based on my portfolio content.\"\n- Do NOT repeat context verbatim or use database labels like \"Project:\", \"Tags:\", \"Content:\".\n- Synthesize into natural sentences.\n\nPROJECTS RULE:\nList ONLY these when asked about projects: UXLens-AI, Moodly, De Blaze, ParkIQ, Ghost Shooter.\n\nEDUCATION RULE:\n- If end year is in the future (e.g., 2026), say \"currently pursuing\".\n- NEVER say \"has a Master’s degree\" unless explicitly completed.\n\nEXPERIENCE RULE:\n- Describe as \"3+ years\" based on education dates.\n- Keep to 1 sentence.\n"

/-- A JSON scalar value as far as the handler's validation observes it. -/
inductive JSVal where
  | str (s : String)
  | num (n : Int)
  | jsBool (b : Bool)
  | jsNull
deriving DecidableEq

/-- JavaScript truthiness of the possibly-absent `message` field (an
absent field reads as `undefined`, which is falsy, as are `null`, `false`,
`0` and the empty string). -/
def truthy : Option JSVal → Bool
  | none => false
  | some (JSVal.str s) => !(s == "")
  | some (JSVal.num n) => !(n == 0)
  | some (JSVal.jsBool b) => b
  | some JSVal.jsNull => false

/-- `typeof message === "string"`. -/
def isString : Option JSVal → Bool
  | some (JSVal.str _) => true
  | _ => false

/-- The string carried by a validated `message` field. -/
def messageText : Option JSVal → String
  | some (JSVal.str s) => s
  | _ => ""

/-- One client-supplied conversation turn. -/
structure Turn where
  role : String
  content : String
deriving DecidableEq

/-- A present `conversationHistory` value: an array, or some other
non-nullish value, on which the history-rendering expression
`history.slice(-6).map(...)` throws. -/
inductive HistVal where
  | arr (l : List Turn)
  | notArr
deriving DecidableEq

/-- `conversationHistory ?? []` for a value that is an array; an absent or
null field coalesces to the empty array. -/
def histList : Option HistVal → List Turn
  | some (HistVal.arr l) => l
  | _ => []

/-- The parsed request as the handler observes it: whether `req.json()`
succeeded (and the exception message if not), the `message` field, the
`conversationHistory` field, and the message of the exception thrown when
a non-array history is sliced. -/
structure RequestInput where
  jsonOk : Bool
  jsonErrMsg : String
  message : Option JSVal
  conversationHistory : Option HistVal
  histErrMsg : String
deriving DecidableEq

/-- Environment configuration; a missing variable reads as the empty
string (both are falsy in the source's checks). -/
structure Env where
  supabaseUrl : String
  supabaseAnonKey : String
  groqKey : String
deriving DecidableEq

/-- Result of one store read: `error` carries the error message when the
read failed, `data` the possibly-null row list. -/
structure StoreRes where
  error : Option String
  data : Option (List KnowledgeRow)
deriving DecidableEq

/-- Behaviour of the completion service on this request: HTTP success flag,
raw body text (used as error details), whether the success body parsed as
JSON (with the exception message if not), and the value of the optional
chain `out?.choices?.[0]?.message?.content`. -/
structure GroqRes where
  ok : Bool
  text : String
  jsonOk : Bool
  jsonErrMsg : String
  answer : Option String
deriving DecidableEq

/-- Everything one invocation of the handler can observe. -/
structure World where
  req : RequestInput
  env : Env
  essentialsRes : StoreRes
  searchRes : StoreRes
  groq : GroqRes
deriving DecidableEq

/-- A response body: empty (OPTIONS), an error envelope
`{ error, details? }`, or a success envelope `{ response }`. -/
inductive RespBody where
  | empty
  | errB (error : String) (details : Option String)
  | okB (response : String)
deriving DecidableEq

/-- An HTTP response as the handler builds it. -/
structure ApiResponse where
  status : Nat
  body : RespBody
  headers : List (String × String)
deriving DecidableEq

/-- The outbound chat-completion request body (route.ts:195-200). -/
structure CompletionRequest where
  model : String
  systemContent : String
  userContent : String
  temperature : ℚ
  maxTokens : Nat
deriving DecidableEq

/-- The handler's observable outcome: the response, how many store read
queries were issued, and the completion request if one was sent. -/
structure Outcome where
  resp : ApiResponse
  storeReads : Nat
  completionReq : Option CompletionRequest
deriving DecidableEq

/-- The shared CORS header object (route.ts:4-8). -/
def corsHeaders : List (String × String) :=
  [("Access-Control-Allow-Origin", "*"),
   ("Access-Control-Allow-Methods", "POST, OPTIONS"),
   ("Access-Control-Allow-Headers", "Content-Type")]

/-- The OPTIONS handler (route.ts:12-14): 204, no body, CORS headers. -/
def OPTIONS : ApiResponse :=
  ⟨204, RespBody.empty, corsHeaders⟩

/-- `.slice(-6)`: the last (up to) six entries. -/
def lastSix (l : List Turn) : List Turn :=
  l.drop (l.length - 6)

/-- The rendered history lines of the user message (route.ts:179-182). -/
def renderHistory (hist : List Turn) : String :=
  joinSep "\n" ((lastSix hist).map (fun m => m.role ++ ": " ++ m.content))

/-- The user message (route.ts:177-183). -/
def mkUserContent (rowCount : Nat) (context : String) (hist : List Turn)
    (message : String) : String :=
  "PORTFOLIO CONTEXT (rows: " ++ Nat.repr rowCount ++ "):\n" ++ context ++
    "\n\n" ++ "Conversation history (brief):\n" ++ renderHistory hist ++
    "\n\n" ++ "User question:\n" ++ message

/-- The POST handler (route.ts:16-224) as a pure function of the request,
the environment, and the recorded behaviour of the two collaborators.
Each early `return` of the source becomes one branch; thrown exceptions
(body-parse failure, slicing a non-array history, unparsable completion
body) land in the top-level catch branch with status 500 and error
"Server error". `storeReads` counts the store queries issued before
returning, and `completionReq` is the outbound completion call, if one
was made. -/
def POST (w : World) : Outcome :=
  if w.req.jsonOk then
    if !(truthy w.req.message) || !(isString w.req.message) then
      ⟨⟨400, RespBody.errB "Missing 'message'." none, corsHeaders⟩, 0, none⟩
    else if w.env.supabaseUrl == "" || w.env.supabaseAnonKey == "" then
      ⟨⟨500, RespBody.errB "Missing Supabase env vars" none, corsHeaders⟩,
        0, none⟩
    else if w.env.groqKey == "" then
      ⟨⟨500, RespBody.errB "Missing GROQ_API_KEY" none, corsHeaders⟩,
        0, none⟩
    else
      match w.essentialsRes.error with
      | some m =>
        ⟨⟨500, RespBody.errB "Supabase essentials query failed" (some m),
          corsHeaders⟩, 2, none⟩
      | none =>
        match w.searchRes.error with
        | some m =>
          ⟨⟨500, RespBody.errB "Supabase search query failed" (some m),
            corsHeaders⟩, 2, none⟩
        | none =>
          let data :=
            mergeRows (w.searchRes.data.getD []) (w.essentialsRes.data.getD [])
          let context := formatContext data
          match w.req.conversationHistory with
          | some HistVal.notArr =>
            ⟨⟨500, RespBody.errB "Server error" (some w.req.histErrMsg),
              corsHeaders⟩, 2, none⟩
          | h =>
            let creq : CompletionRequest :=
              ⟨"llama-3.1-8b-instant", systemPrompt,
                mkUserContent data.length context (histList h)
                  (messageText w.req.message), 3 / 10, 300⟩
            if w.groq.ok then
              if w.groq.jsonOk then
                ⟨⟨200, RespBody.okB (w.groq.answer.getD
                  "I don't know based on my portfolio content."),
                  corsHeaders⟩, 2, some creq⟩
              else
                ⟨⟨500, RespBody.errB "Server error" (some w.groq.jsonErrMsg),
                  corsHeaders⟩, 2, some creq⟩
            else
              ⟨⟨500, RespBody.errB "Groq request failed" (some w.groq.text),
                corsHeaders⟩, 2, some creq⟩
  else
    ⟨⟨500, RespBody.errB "Server error" (some w.req.jsonErrMsg),
      corsHeaders⟩, 0, none⟩

/-- The rendered history lines in the second handler (part_000:177-180);
the source lines are verbatim identical to route.ts. -/
def renderHistoryV0 (hist : List Turn) : String :=
  joinSep "\n" ((lastSix hist).map (fun m => m.role ++ ": " ++ m.content))

/-- The user message of the second handler (part_000:175-181); verbatim
identical to route.ts. -/
def mkUserContentV0 (rowCount : Nat) (context : String) (hist : List Turn)
    (message : String) : String :=
  "PORTFOLIO CONTEXT (rows: " ++ Nat.repr rowCount ++ "):\n" ++ context ++
    "\n\n" ++ "Conversation history (brief):\n" ++ renderHistoryV0 hist ++
    "\n\n" ++ "User question:\n" ++ message

/-- The POST handler of `src/unnamed/part_000` (lines 16-222). The file
is line-for-line identical to route.ts except for the system template
literal (not trimmed there) and `max_tokens: 120`; the shared retrieval,
merge and formatting definitions correspond to verbatim-identical source
lines in the two files. -/
def POST_v0 (w : World) : Outcome :=
  if w.req.jsonOk then
    if !(truthy w.req.message) || !(isString w.req.message) then
      ⟨⟨400, RespBody.errB "Missing 'message'." none, corsHeaders⟩, 0, none⟩
    else if w.env.supabaseUrl == "" || w.env.supabaseAnonKey == "" then
      ⟨⟨500, RespBody.errB "Missing Supabase env vars" none, corsHeaders⟩,
        0, none⟩
    else if w.env.groqKey == "" then
      ⟨⟨500, RespBody.errB "Missing GROQ_API_KEY" none, corsHeaders⟩,
        0, none⟩
    else
      match w.essentialsRes.error with
      | some m =>
        ⟨⟨500, RespBody.errB "Supabase essentials query failed" (some m),
          corsHeaders⟩, 2, none⟩
      | none =>
        match w.searchRes.error with
        | some m =>
          ⟨⟨500, RespBody.errB "Supabase search query failed" (some m),
            corsHeaders⟩, 2, none⟩
        | none =>
          let data :=
            mergeRows (w.searchRes.data.getD []) (w.essentialsRes.data.getD [])
          let context := formatContext data
          match w.req.conversationHistory with
          | some HistVal.notArr =>
            ⟨⟨500, RespBody.errB "Server error" (some w.req.histErrMsg),
              corsHeaders⟩, 2, none⟩
          | h =>
            let creq : CompletionRequest :=
              ⟨"llama-3.1-8b-instant", systemPromptV0,
                mkUserContentV0 data.length context (histList h)
                  (messageText w.req.message), 3 / 10, 120⟩
            if w.groq.ok then
              if w.groq.jsonOk then
                ⟨⟨200, RespBody.okB (w.groq.answer.getD
                  "I don't know based on my portfolio content."),
                  corsHeaders⟩, 2, some creq⟩
              else
                ⟨⟨500, RespBody.errB "Server error" (some w.groq.jsonErrMsg),
                  corsHeaders⟩, 2, some creq⟩
            else
              ⟨⟨500, RespBody.errB "Groq request failed" (some w.groq.text),
                corsHeaders⟩, 2, some creq⟩
  else
    ⟨⟨500, RespBody.errB "Server error" (some w.req.jsonErrMsg),
      corsHeaders⟩, 0, none⟩

/-- C7: the OPTIONS handler returns 204 with no body and the three
permissive cross-origin headers, and every response of the POST handler —
success or error — carries exactly the same three headers. -/
theorem cors_on_every_response :
    OPTIONS.status = 204 ∧ OPTIONS.body = RespBody.empty ∧
    OPTIONS.headers = corsHeaders ∧
    corsHeaders = [("Access-Control-Allow-Origin", "*"),
      ("Access-Control-Allow-Methods", "POST, OPTIONS"),
      ("Access-Control-Allow-Headers", "Content-Type")] ∧
    (∀ w : World, (POST w).resp.headers = corsHeaders) := by
  refine ⟨rfl, rfl, rfl, rfl, fun w => ?_⟩
  unfold POST
  repeat' split
  all_goals rfl

/-- C3: a parsed body with an absent `message` field or a non-string
`message` value gets a 400 error envelope, and the handler issues no store
read and no completion call. -/
theorem invalid_message_400 (w : World) (hjson : w.req.jsonOk = true)
    (hmsg : w.req.message = none ∨ isString w.req.message = false) :
    (POST w).resp.status = 400 ∧
    (POST w).resp.body = RespBody.errB "Missing 'message'." none ∧
    (POST w).storeReads = 0 ∧ (POST w).completionReq = none := by
  have hcond : (!(truthy w.req.message) || !(isString w.req.message)) = true := by
    rcases hmsg with h | h
    · simp [h, truthy]
    · simp [h]
  simp [POST, hjson, hcond]

/-- A request whose `message` is the number 5. -/
def wNumMsg : World :=
  ⟨⟨true, "", some (JSVal.num 5), none, ""⟩, ⟨"u", "k", "g"⟩,
    ⟨none, none⟩, ⟨none, none⟩, ⟨true, "", true, "", none⟩⟩

/-- Witness for C3 at a concrete request. -/
theorem invalid_message_400_witness :
    (POST wNumMsg).resp.status = 400 ∧
    (POST wNumMsg).resp.body = RespBody.errB "Missing 'message'." none ∧
    (POST wNumMsg).storeReads = 0 ∧ (POST wNumMsg).completionReq = none :=
  invalid_message_400 wNumMsg rfl (Or.inr rfl)

/-- C4: when the essentials read (or otherwise the search read) reports an
error, the handler returns 500, the `details` field of the error envelope
is that read's reported error message, and no completion call is made. -/
theorem store_error_500 (w : World) (hjson : w.req.jsonOk = true)
    (s : String) (hmsg : w.req.message = some (JSVal.str s)) (hs : s ≠ "")
    (henv1 : w.env.supabaseUrl ≠ "") (henv2 : w.env.supabaseAnonKey ≠ "")
    (henv3 : w.env.groqKey ≠ "") :
    (∀ m, w.essentialsRes.error = some m →
      (POST w).resp.status = 500 ∧
      (POST w).resp.body =
        RespBody.errB "Supabase essentials query failed" (some m) ∧
      (POST w).completionReq = none) ∧
    (w.essentialsRes.error = none → ∀ m, w.searchRes.error = some m →
      (POST w).resp.status = 500 ∧
      (POST w).resp.body =
        RespBody.errB "Supabase search query failed" (some m) ∧
      (POST w).completionReq = none) := by
  have hc1 : (!(truthy w.req.message) || !(isString w.req.message)) = false := by
    simp [hmsg, truthy, isString, hs]
  have hc2 : (w.env.supabaseUrl == "" || w.env.supabaseAnonKey == "") = false := by
    simp [henv1, henv2]
  have hc3 : (w.env.groqKey == "") = false := by
    simp [henv3]
  constructor
  · intro m hm
    simp [POST, hjson, hc1, hc2, hc3, hm]
  · intro he m hm
    simp [POST, hjson, hc1, hc2, hc3, he, hm]

/-- A request on which the essentials read fails with message "boom". -/
def wStoreErr : World :=
  ⟨⟨true, "", some (JSVal.str "hi"), none, ""⟩, ⟨"u", "k", "g"⟩,
    ⟨some "boom", none⟩, ⟨none, none⟩, ⟨true, "", true, "", none⟩⟩

/-- Witness for C4 at a concrete request. -/
theorem store_error_500_witness :
    (POST wStoreErr).resp.status = 500 ∧
    (POST wStoreErr).resp.body =
      RespBody.errB "Supabase essentials query failed" (some "boom") ∧
    (POST wStoreErr).completionReq = none :=
  (store_error_500 wStoreErr rfl "hi" rfl (by decide) (by decide) (by decide)
    (by decide)).1 "boom" rfl

/-- C5: when the completion service answers with a success status and a
parsable body from which no answer text can be extracted, the handler
returns 200 with the literal fallback sentence as the response. -/
theorem no_answer_fallback (w : World) (hjson : w.req.jsonOk = true)
    (s : String) (hmsg : w.req.message = some (JSVal.str s)) (hs : s ≠ "")
    (henv1 : w.env.supabaseUrl ≠ "") (henv2 : w.env.supabaseAnonKey ≠ "")
    (henv3 : w.env.groqKey ≠ "")
    (he : w.essentialsRes.error = none) (hse : w.searchRes.error = none)
    (hok : w.groq.ok = true) (hjok : w.groq.jsonOk = true)
    (hans : w.groq.answer = none) :
    w.req.conversationHistory ≠ some HistVal.notArr →
    (POST w).resp.status = 200 ∧
    (POST w).resp.body =
      RespBody.okB "I don't know based on my portfolio content." := by
  intro hh
  have hc1 : (!(truthy w.req.message) || !(isString w.req.message)) = false := by
    simp [hmsg, truthy, isString, hs]
  have hc2 : (w.env.supabaseUrl == "" || w.env.supabaseAnonKey == "") = false := by
    simp [henv1, henv2]
  have hc3 : (w.env.groqKey == "") = false := by
    simp [henv3]
  rcases hhist : w.req.conversationHistory with _ | hv
  · simp [POST, hjson, hc1, hc2, hc3, he, hse, hhist, hok, hjok, hans]
  · cases hv with
    | arr l => simp [POST, hjson, hc1, hc2, hc3, he, hse, hhist, hok, hjok, hans]
    | notArr => exact absurd hhist hh

/-- A request reaching the completion call, whose completion body carries
no extractable answer. -/
def wNoAnswer : World :=
  ⟨⟨true, "", some (JSVal.str "hi"), some (HistVal.arr [⟨"user", "hey"⟩]), ""⟩,
    ⟨"u", "k", "g"⟩, ⟨none, some [benignRow]⟩, ⟨none, none⟩,
    ⟨true, "", true, "", none⟩⟩

/-- Witness for C5 at a concrete request. -/
theorem no_answer_fallback_witness :
    (POST wNoAnswer).resp.status = 200 ∧
    (POST wNoAnswer).resp.body =
      RespBody.okB "I don't know based on my portfolio content." :=
  no_answer_fallback wNoAnswer rfl "hi" rfl (by decide) (by decide)
    (by decide) (by decide) rfl rfl rfl rfl rfl (by decide)

/-- A request with valid JSON whose history is not an array but whose
`message` field is absent. -/
def wBadHistNoMsg : World :=
  ⟨⟨true, "", none, some HistVal.notArr, "history has no slice"⟩,
    ⟨"u", "k", "g"⟩, ⟨none, none⟩, ⟨none, none⟩, ⟨true, "", true, "", none⟩⟩

/-- C10 counterexample: the claim promises a 500 "Server error" for every
request whose `conversationHistory` is present and not an array, but when
the `message` field is also invalid the 400 validation branch runs first,
so this request gets 400, not 500. -/
theorem non_array_history_counterexample :
    (POST wBadHistNoMsg).resp.status = 400 ∧
    (POST wBadHistNoMsg).resp.body = RespBody.errB "Missing 'message'." none := by
  refine ⟨rfl, rfl⟩

/-- C10 (amended): an unparsable body always yields the top-level catch's
500 "Server error"; a present non-array history yields the same 500
"Server error" — rather than a 400 client error — provided the request
otherwise reaches the history-rendering step (valid message, configuration
present, both store reads succeeded). -/
theorem server_error_branches (w : World) :
    (w.req.jsonOk = false →
      (POST w).resp.status = 500 ∧
      (POST w).resp.body = RespBody.errB "Server error" (some w.req.jsonErrMsg)) ∧
    (∀ s, w.req.jsonOk = true → w.req.message = some (JSVal.str s) → s ≠ "" →
      w.env.supabaseUrl ≠ "" → w.env.supabaseAnonKey ≠ "" →
      w.env.groqKey ≠ "" → w.essentialsRes.error = none →
      w.searchRes.error = none →
      w.req.conversationHistory = some HistVal.notArr →
      (POST w).resp.status = 500 ∧
      (POST w).resp.body = RespBody.errB "Server error" (some w.req.histErrMsg)) := by
  constructor
  · intro hjson
    simp [POST, hjson]
  · intro s hjson hmsg hs henv1 henv2 henv3 he hse hh
    have hc1 : (!(truthy w.req.message) || !(isString w.req.message)) = false := by
      simp [hmsg, truthy, isString, hs]
    have hc2 : (w.env.supabaseUrl == "" || w.env.supabaseAnonKey == "") = false := by
      simp [henv1, henv2]
    have hc3 : (w.env.groqKey == "") = false := by
      simp [henv3]
    simp [POST, hjson, hc1, hc2, hc3, he, hse, hh]

/-- A request whose body is not valid JSON. -/
def wBadJson : World :=
  ⟨⟨false, "Unexpected token", none, none, ""⟩, ⟨"u", "k", "g"⟩,
    ⟨none, none⟩, ⟨none, none⟩, ⟨true, "", true, "", none⟩⟩

/-- A request that reaches the history-rendering step with a non-array
history. -/
def wBadHist : World :=
  ⟨⟨true, "", some (JSVal.str "hi"), some HistVal.notArr,
    "history has no slice"⟩, ⟨"u", "k", "g"⟩, ⟨none, none⟩, ⟨none, none⟩,
    ⟨true, "", true, "", none⟩⟩

/-- Witness for the amended C10 at two concrete requests. -/
theorem server_error_branches_witness :
    ((POST wBadJson).resp.status = 500 ∧
      (POST wBadJson).resp.body =
        RespBody.errB "Server error" (some "Unexpected token")) ∧
    ((POST wBadHist).resp.status = 500 ∧
      (POST wBadHist).resp.body =
        RespBody.errB "Server error" (some "history has no slice")) :=
  ⟨(server_error_branches wBadJson).1 rfl,
    (server_error_branches wBadHist).2 "hi" rfl rfl (by decide) (by decide)
      (by decide) (by decide) rfl rfl rfl⟩

/-- C8: the two handlers compute the same response and side effects on
every input, and their outbound completion requests agree on model, user
message and temperature; they differ in nothing but the system-message
text (`systemPrompt`, trimmed, versus `systemPromptV0`) and the output
token budget (300 versus 120). -/
theorem handlers_pointwise_equal (w : World) :
    (POST w).resp = (POST_v0 w).resp ∧
    (POST w).storeReads = (POST_v0 w).storeReads ∧
    Option.map (fun c => (c.model, c.userContent, c.temperature))
        (POST w).completionReq =
      Option.map (fun c => (c.model, c.userContent, c.temperature))
        (POST_v0 w).completionReq ∧
    Option.map (fun c => (c.systemContent, c.maxTokens)) (POST w).completionReq =
      Option.map (fun _ => (systemPrompt, 300)) (POST w).completionReq ∧
    Option.map (fun c => (c.systemContent, c.maxTokens)) (POST_v0 w).completionReq =
      Option.map (fun _ => (systemPromptV0, 120)) (POST_v0 w).completionReq := by
  by_cases h1 : w.req.jsonOk = true
  · by_cases h2 : (!(truthy w.req.message) || !(isString w.req.message)) = true
    · simp [POST, POST_v0, h1, h2]
    · rw [Bool.not_eq_true] at h2
      by_cases h3 : (w.env.supabaseUrl == "" || w.env.supabaseAnonKey == "") = true
      · simp [POST, POST_v0, h1, h2, h3]
      · rw [Bool.not_eq_true] at h3
        by_cases h4 : (w.env.groqKey == "") = true
        · simp [POST, POST_v0, h1, h2, h3, h4]
        · rw [Bool.not_eq_true] at h4
          rcases he : w.essentialsRes.error with _ | m
          · rcases hse : w.searchRes.error with _ | m
            · rcases hh : w.req.conversationHistory with _ | hv
              · by_cases h5 : w.groq.ok = true
                · by_cases h6 : w.groq.jsonOk = true
                  · simp [POST, POST_v0, h1, h2, h3, h4, he, hse, hh, h5, h6,
                      mkUserContent, mkUserContentV0, renderHistory,
                      renderHistoryV0]
                  · rw [Bool.not_eq_true] at h6
                    simp [POST, POST_v0, h1, h2, h3, h4, he, hse, hh, h5, h6,
                      mkUserContent, mkUserContentV0, renderHistory,
                      renderHistoryV0]
                · rw [Bool.not_eq_true] at h5
                  simp [POST, POST_v0, h1, h2, h3, h4, he, hse, hh, h5,
                    mkUserContent, mkUserContentV0, renderHistory,
                    renderHistoryV0]
              · cases hv with
                | arr l =>
                  by_cases h5 : w.groq.ok = true
                  · by_cases h6 : w.groq.jsonOk = true
                    · simp [POST, POST_v0, h1, h2, h3, h4, he, hse, hh, h5, h6,
                        mkUserContent, mkUserContentV0, renderHistory,
                        renderHistoryV0]
                    · rw [Bool.not_eq_true] at h6
                      simp [POST, POST_v0, h1, h2, h3, h4, he, hse, hh, h5, h6,
                        mkUserContent, mkUserContentV0, renderHistory,
                        renderHistoryV0]
                  · rw [Bool.not_eq_true] at h5
                    simp [POST, POST_v0, h1, h2, h3, h4, he, hse, hh, h5,
                      mkUserContent, mkUserContentV0, renderHistory,
                      renderHistoryV0]
                | notArr =>
                  simp [POST, POST_v0, h1, h2, h3, h4, he, hse, hh]
            · simp [POST, POST_v0, h1, h2, h3, h4, he, hse]
          · simp [POST, POST_v0, h1, h2, h3, h4, he]
  · rw [Bool.not_eq_true] at h1
    simp [POST, POST_v0, h1]

/-- Witness for C1 at concrete colliding lists: the survivor of the
deduplication is the first occurrence of its key. -/
theorem merger_keeps_first_occurrence_witness :
    ([rowPipeA] ++ [rowPipeB]).find?
      (fun x => rowKey x == rowKey rowPipeA) = some rowPipeA :=
  (merger_keeps_first_occurrence [rowPipeA] [rowPipeB]).2.2.2.1 rowPipeA
    (by decide)
